import Mathlib

/-! Verification of the Real-Time Multi-Source Knowledge Assistant
(LangGraph RAG) repository.

A shallow embedding, in Lean 4, of the parts of the repository that the
specification's claims are about:

* `src/src/guardrails.py` — the content-safety engine (`ContentGuardrails`):
  query checks (direct keyword violations, contextual regex violations,
  sensitive-topic regex checks) and response checks (harmful-advice patterns,
  medical-misinformation disclaimers).
* `src/src/rag.py` — the RAG pipeline (`RAGPipeline`): intent classification,
  vector retrieval, cross-encoder re-ranking, answer generation, conversation
  memory, and the `invoke` entry point with its safety gating.
* `src/src/config.py` — the settings relevant to re-ranking.
* `src/app.py` — chat-session persistence (`save_session` / `load_session`)
  including the `datetime.isoformat` / `datetime.fromisoformat` round trip.

Python strings are modelled as `List Char` (ASCII fidelity: `str.lower` is
modelled by `Char.toLower`, which lower-cases exactly `A`–`Z`, and `str.strip`
by removing the six ASCII whitespace characters Python strips). Regular
expressions in the source consist only of literal runs joined by `.*`,
optional final letters (`s?` followed by `.*`), and alternations `(?:a|b)`;
they are modelled by an in-order multi-substring matcher (`matchSeqAlt`),
with `.` modelled as matching any character. Floating-point relevance scores
are modelled by `ℚ`; the cross-encoder, retriever and LLM are environment
parameters (`Env`), since they are external services. Exceptions raised by
those services are modelled by `Except`, mirroring the `try`/`except` blocks
in the source.
-/

namespace RAGSpec

/-! ## Python string primitives -/

/-- Python `str.lower` (ASCII): lower-case every character. -/
def pyLower (s : List Char) : List Char := s.map Char.toLower

/-- The whitespace characters removed by Python `str.strip()`. -/
def isPySpace (c : Char) : Bool :=
  c = ' ' || c = '\t' || c = '\n' || c = '\x0d' || c = '\x0b' || c = '\x0c'

/-- Python `str.strip()`: drop whitespace from both ends. -/
def pyStrip (s : List Char) : List Char :=
  ((s.dropWhile isPySpace).reverse.dropWhile isPySpace).reverse

/-- Python's `needle in haystack` substring test. -/
def containsSub (needle : List Char) : List Char → Bool
  | [] => needle.isEmpty
  | c :: t => needle.isPrefixOf (c :: t) || containsSub needle t

/-- Drop everything up to and including the first occurrence of `p`;
`none` when `p` does not occur. -/
def dropAfterFirst (p : List Char) : List Char → Option (List Char)
  | [] => if p.isEmpty then some [] else none
  | c :: t =>
    if p.isPrefixOf (c :: t) then some ((c :: t).drop p.length)
    else dropAfterFirst p t

/-- All suffixes of `h` that start right after an occurrence of one of the
alternative literals `alts` (used for `(?:a|b|…)` groups). -/
def altEnds (alts : List (List Char)) (h : List Char) : List (List Char) :=
  h.tails.flatMap fun t =>
    alts.filterMap fun a => if a.isPrefixOf t then some (t.drop a.length) else none

/-- The `re.search` for a pattern that is a sequence of alternation groups joined
by `.*`: each group must match, in order, at non-overlapping positions. -/
def matchSeqAlt : List (List (List Char)) → List Char → Bool
  | [], _ => true
  | e :: es, h => (altEnds e h).any fun r => matchSeqAlt es r

/-- A regex from the source, as a `.*`-joined sequence of alternation groups
of string literals. -/
def Pat := List (List String)

/-- Interpretation of a `Pat` over a character list. -/
def patMatch (p : Pat) (h : List Char) : Bool :=
  matchSeqAlt (p.map fun alts => alts.map String.data) h

/-! ## Guardrails (`src/src/guardrails.py`) -/

/-- Result of a safety check: the `(is_safe, reason)` part of the tuples the
Python checks return (the metadata dict, which only repeats these fields and
adds a wall-clock timestamp, is not modelled). -/
structure CheckResult where
  isSafe : Bool
  reason : String
deriving DecidableEq, Repr

/-- The `ContentGuardrails.TRIGGER_KEYWORDS`, in insertion order. -/
def triggerKeywords : List (String × List String) :=
  [ ("violence", ["kill", "murder", "attack", "bomb", "weapon", "gun", "shoot", "stab"])
  , ("hacking", ["hack", "exploit", "breach", "phishing", "malware", "virus", "trojan"])
  , ("drugs", ["meth", "heroin", "cocaine", "fentanyl", "synthesize", "manufacture"])
  , ("self_harm", ["suicide", "self-harm", "overdose", "cutting", "starvation"])
  , ("illegal", ["forgery", "counterfeit", "smuggle", "traffick", "launder"])
  , ("explicit", ["porn", "sex", "nude", "erotic", "fetish", "adult content"])
  , ("hate", ["racist", "sexist", "homophobic", "transphobic", "bigot"]) ]

/-- The `ContentGuardrails.SAFE_CONTEXTS`. -/
def safeContexts : List String :=
  [ "historical", "educational", "academic", "research", "fiction", "literature"
  , "medical study", "psychological research", "legal analysis", "news reporting" ]

/-- The `_is_safe_context`: some safe-context token occurs in the query. -/
def isSafeContext (q : List Char) : Bool :=
  safeContexts.any fun c => containsSub c.data (pyLower q)

/-- Python `category.replace('_', ' ')`. -/
def underscoreToSpace (s : String) : String :=
  String.mk (s.data.map fun c => if c = '_' then ' ' else c)

/-- The first `(category, keyword)` of `TRIGGER_KEYWORDS` whose keyword occurs
in the query, scanning in insertion order. -/
def findTrigger (q : List Char) : Option (String × String) :=
  triggerKeywords.findSome? fun kv =>
    (kv.2.find? fun w => containsSub w.data q).map fun w => (kv.1, w)

/-- The `_check_direct_violations`: a trigger keyword makes the query unsafe
unless a safe-context token is present (the safe-context test does not depend
on which keyword fired, so the per-keyword check in the source collapses to
this form). -/
def checkDirectViolations (q : List Char) : CheckResult :=
  match findTrigger q with
  | some (cat, _) =>
    if isSafeContext q then ⟨true, "No direct violations detected"⟩
    else ⟨false, "Query contains potentially harmful content related to " ++
      underscoreToSpace cat⟩
  | none => ⟨true, "No direct violations detected"⟩

/-- The `bypass_patterns` regexes of `_check_contextual_violations`
(`s?` before a final `.*` makes the optional letter irrelevant). -/
def bypassPatterns : List Pat :=
  [ [["how to"], ["without getting caught"]]
  , [["ways to"], ["illegally"]]
  , [["secret method"]]
  , [["hidden technique"]]
  , [["bypass"], ["restriction"]]
  , [["circumvent"], ["law"]] ]

/-- The `harmful_roleplay` regexes of `_check_contextual_violations`. -/
def harmfulRoleplayPatterns : List Pat :=
  [ [["pretend"], ["kill", "murder", "attack"]]
  , [["role"], ["play"], ["criminal", "terrorist", "hacker"]]
  , [["act like"], ["drug dealer", "criminal"]] ]

/-- The `_check_contextual_violations`: bypass patterns, then role-play patterns.
No safe-context test appears in this check. -/
def checkContextualViolations (q : List Char) : CheckResult :=
  if bypassPatterns.any fun p => patMatch p q then
    ⟨false, "Query appears to attempt bypassing safety restrictions or legal boundaries"⟩
  else if harmfulRoleplayPatterns.any fun p => patMatch p q then
    ⟨false, "Query involves role-playing harmful or illegal activities"⟩
  else ⟨true, "No contextual violations detected"⟩

/-- The `sensitive_indicators` regexes of `_check_sensitive_topics`
(the top-level alternation `genocide|holocaust.*deny` is split into two
entries, which is observationally identical since every entry yields the
same result). -/
def sensitiveIndicators : List Pat :=
  [ [["child"], ["abuse", "exploitation", "porn"]]
  , [["minor"], ["sexual", "explicit"]]
  , [["underage"], ["content", "material"]]
  , [["genocide"]]
  , [["holocaust"], ["deny"]]
  , [["conspiracy"], ["government"], ["control"]] ]

/-- The `_check_sensitive_topics`: unconditional pattern scan, no safe-context
test. -/
def checkSensitiveTopics (q : List Char) : CheckResult :=
  if sensitiveIndicators.any fun p => patMatch p q then
    ⟨false, "Query involves highly sensitive topics that require special handling"⟩
  else ⟨true, "No sensitive topics detected"⟩

/-- The `query.lower().strip()`, the normalisation performed at the top of
`check_query_safety`. -/
def normQuery (q : String) : List Char := pyStrip (pyLower q.data)

/-- The body of `check_query_safety` after normalisation: direct violations,
then contextual violations, then sensitive topics. -/
def checkQuerySafetyCore (ql : List Char) : CheckResult :=
  let d := checkDirectViolations ql
  if !d.isSafe then d
  else
    let c := checkContextualViolations ql
    if !c.isSafe then c
    else
      let s := checkSensitiveTopics ql
      if !s.isSafe then s
      else ⟨true, "Query appears safe"⟩

/-- The `check_query_safety` (and the module-level `check_query`). -/
def checkQuerySafety (q : String) : CheckResult :=
  checkQuerySafetyCore (normQuery q)

/-- The `harmful_advice_patterns` regexes of
`_check_response_harmful_content`. -/
def harmfulAdvicePatterns : List Pat :=
  [ [["here"], ["s"], ["how to"], ["kill", "murder", "attack", "hack"]]
  , [["step"], ["by"], ["step"], ["bomb", "weapon", "drug"]]
  , [["follow these steps"], ["illegal", "criminal"]] ]

/-- The `_check_response_harmful_content`. -/
def checkResponseHarmfulContent (r : List Char) : CheckResult :=
  if harmfulAdvicePatterns.any fun p => patMatch p r then
    ⟨false, "Response contains actionable harmful instructions"⟩
  else ⟨true, "No harmful content in response"⟩

/-- The medical-query indicator words of `_check_misinformation`. -/
def medicalQueryWords : List String :=
  ["medical", "health", "disease", "treatment", "cure"]

/-- The disclaimers `_check_misinformation` looks for. -/
def medicalDisclaimers : List String :=
  ["consult a doctor", "professional medical advice", "not a substitute"]

/-- The `_check_misinformation`: a medical query demands a disclaimer in the
response. `r` is the already lower-cased and stripped response (the source
lower-cases it again, which is a no-op here kept for fidelity). -/
def checkMisinformation (r : List Char) (origQuery : String) : CheckResult :=
  if medicalQueryWords.any fun w => containsSub w.data (pyLower origQuery.data) then
    if medicalDisclaimers.any fun d => containsSub d.data (pyLower r) then
      ⟨true, "No misinformation concerns detected"⟩
    else ⟨false, "Medical query response lacks proper disclaimers"⟩
  else ⟨true, "No misinformation concerns detected"⟩

/-- The `check_response_safety` (and the module-level `check_response`). -/
def checkResponseSafety (response query : String) : CheckResult :=
  let rl := pyStrip (pyLower response.data)
  let h := checkResponseHarmfulContent rl
  if !h.isSafe then h
  else
    let m := checkMisinformation rl query
    if !m.isSafe then m
    else ⟨true, "Response appears safe"⟩

/-! ## Settings (`src/src/config.py`) -/

/-- The `Settings.reranking_threshold` (default `0.5`, i.e. one half). -/
def rerankingThreshold : ℚ := mkRat 1 2

/-- The `Settings.top_k_results` (default `5`). -/
def topKResults : Nat := 5

/-! ## RAG pipeline (`src/src/rag.py`) -/

/-- A retrieved document; every document in the pipeline has a
`page_content` attribute (the `str(doc)` fallback of the source is for
foreign objects and is not exercised). -/
structure Doc where
  pageContent : String
deriving DecidableEq, Repr

/-- One conversation-memory entry, as built by `memory_update_node`. -/
structure Exchange where
  query : String
  answer : String
  intent : String
  confidence : ℚ
deriving DecidableEq, Repr

/-- The LangGraph state dict of the pipeline. -/
structure PState where
  query : String
  intent : String
  vectorResults : List Doc
  rerankedResults : List Doc
  answer : String
  memory : List Exchange
  confidence : ℚ
  error : Option String
deriving DecidableEq, Repr

/-- The external services the pipeline calls: the vector-store retriever,
the cross-encoder relevance scorer (one score per `(query, text)` pair) and
the chat LLM. `Except.error` models a raised exception. -/
structure Env where
  retrieve : String → Except String (List Doc)
  score : String → String → ℚ
  llm : String → Except String String

/-- The keyword group mapped to intent `"search"` in `intent_classifier`. -/
def searchKeywords : List String := ["search", "find", "look for"]

/-- The keyword group mapped to intent `"coding"` in `intent_classifier`. -/
def codingKeywords : List String := ["code", "debug", "fix", "implement"]

/-- The keyword group mapped to intent `"explanation"` in
`intent_classifier`. -/
def explanationKeywords : List String := ["explain", "help", "how", "why"]

/-- The `intent_classifier`: keyword groups are tested in the source's order —
search first, then coding, then explanation, else general. -/
def intentClassifier (st : PState) : PState :=
  let ql := pyLower st.query.data
  let intent :=
    if searchKeywords.any fun w => containsSub w.data ql then "search"
    else if codingKeywords.any fun w => containsSub w.data ql then "coding"
    else if explanationKeywords.any fun w => containsSub w.data ql then "explanation"
    else "general"
  { st with intent := intent }

/-- The `vector_rag_node`: retrieval; an exception is caught and recorded in
`state["error"]`, leaving `vector_results` untouched. -/
def vectorRagNode (env : Env) (st : PState) : PState :=
  match env.retrieve st.query with
  | .ok docs => { st with vectorResults := docs }
  | .error e => { st with error := some e }

/-- The comparison `sorted(..., key=lambda x: x[1], reverse=True)` uses:
descending by score. Python's sort is stable, which `List.mergeSort` with
this (total, transitive) comparison models exactly. -/
def scoreLE (x y : Doc × ℚ) : Bool := decide (y.2 ≤ x.2)

/-- The `reranker_node`: score every `(query, page_content)` pair, sort the
`(doc, score)` pairs descending by score (stably), keep the docs whose score
reaches `reranking_threshold`, truncate to `top_k_results`, and record
`float(scores[0]) if scores else 0.0` — the score of the *first retrieved*
document — as the confidence. On an empty candidate list it only clears
`reranked_results`. -/
def rerankerNode (env : Env) (st : PState) : PState :=
  let results := st.vectorResults
  if results.isEmpty then { st with rerankedResults := [] }
  else
    let scores := results.map fun d => env.score st.query d.pageContent
    let ranked := (results.zip scores).mergeSort scoreLE
    let reranked :=
      ((ranked.filter fun x => decide (rerankingThreshold ≤ x.2)).map Prod.fst).take
        topKResults
    { st with rerankedResults := reranked, confidence := scores.headD 0 }

/-- The context string of `answer_generator_node`:
`"\n".join(doc.page_content …)`. -/
def buildContext (docs : List Doc) : String :=
  String.intercalate "\n" (docs.map Doc.pageContent)

/-- The prompt of `answer_generator_node` (`if context:` distinguishes the
grounded and ungrounded prompts). -/
def buildPrompt (context query : String) : String :=
  if context ≠ "" then
    "Based on the following context, answer the question.\n\nContext:\n" ++
      context ++ "\n\nQuestion: " ++ query ++
      "\n\nProvide a detailed, expert-level response with code examples if applicable."
  else
    "Answer this question about software engineering and coding:\n\nQuestion: " ++
      query ++ "\n\nProvide a comprehensive, expert-level response."

/-- The `answer_generator_node`: call the LLM; an exception is caught and turned
into the answer `"Error generating answer: …"` plus an error record. -/
def answerGeneratorNode (env : Env) (st : PState) : PState :=
  let prompt := buildPrompt (buildContext st.rerankedResults) st.query
  match env.llm prompt with
  | .ok a => { st with answer := a }
  | .error e =>
    { st with answer := "Error generating answer: " ++ e, error := some e }

/-- The exchange appended by `memory_update_node`. -/
def mkExchange (st : PState) : Exchange :=
  ⟨st.query, st.answer, st.intent, st.confidence⟩

/-- The `memory_update_node`: append the exchange and keep the last 20 entries
(`memory[-20:]`, modelled by dropping all but the final 20). -/
def memoryUpdateNode (st : PState) : PState :=
  let m := st.memory ++ [mkExchange st]
  { st with memory := m.drop (m.length - 20) }

/-- The compiled LangGraph: `intent_classifier → vector_rag → reranker →
answer_generator → memory_update → END`, a straight-line graph. -/
def runGraph (env : Env) (st : PState) : PState :=
  memoryUpdateNode (answerGeneratorNode env (rerankerNode env (vectorRagNode env (intentClassifier st))))

/-- The initial state built by `RAGPipeline.invoke`. -/
def initState (q : String) (hist : List Exchange) : PState :=
  ⟨q, "", [], [], "", hist, 0, none⟩

/-- The `RAGPipeline.invoke`: query-safety gate (short-circuiting to a refusal
with empty sources), graph run, response-safety gate (replacing the answer
but, as in the source, still returning `result["reranked_results"]` as the
sources). Node-level exceptions are caught inside the nodes, so the graph
run is total. -/
def invoke (env : Env) (q : String) (hist : List Exchange) : String × List Doc :=
  let check := checkQuerySafety q
  if !check.isSafe then ("I cannot assist with this request. " ++ check.reason, [])
  else
    let result := runGraph env (initState q hist)
    let answer := result.answer
    let rcheck := checkResponseSafety answer q
    let answer1 :=
      if !rcheck.isSafe then "I need to be careful here. " ++ rcheck.reason else answer
    (answer1, result.rerankedResults)

/-- The `ask_question`, the module-level entry point: delegates to
`RAGPipeline.invoke` on the singleton pipeline. -/
def askQuestion (env : Env) (q : String) (hist : List Exchange) : String × List Doc :=
  invoke env q hist

/-! ## Chat-session persistence (`src/app.py`)

`save_session` JSON-serialises the session dict after replacing the
`created_at` datetime by `created_at.isoformat()`; `load_session` parses the
JSON back and applies `datetime.fromisoformat`, returning `None` on any
exception. JSON round-trips the plain string/list fields structurally, so the
file system is modelled as a map from session id to the serialised record,
and the datetime serialisation is modelled exactly. -/

/-- A naive Python `datetime` (as produced by `datetime.now()`): the seven
stored components. -/
structure Datetime where
  year : Nat
  month : Nat
  day : Nat
  hour : Nat
  minute : Nat
  second : Nat
  microsecond : Nat
deriving DecidableEq, Repr

/-- Python's Gregorian leap-year rule. -/
def isLeapYear (y : Nat) : Bool :=
  y % 4 = 0 && (y % 100 ≠ 0 || y % 400 = 0)

/-- Days in a month (0 for an invalid month number). -/
def daysInMonth (y m : Nat) : Nat :=
  match m with
  | 1 => 31 | 2 => if isLeapYear y then 29 else 28 | 3 => 31 | 4 => 30
  | 5 => 31 | 6 => 30 | 7 => 31 | 8 => 31 | 9 => 30 | 10 => 31
  | 11 => 30 | 12 => 31 | _ => 0

/-- The invariant Python's `datetime` constructor enforces on its fields. -/
def ValidDatetime (t : Datetime) : Prop :=
  1 ≤ t.year ∧ t.year ≤ 9999 ∧ 1 ≤ t.month ∧ t.month ≤ 12 ∧
  1 ≤ t.day ∧ t.day ≤ daysInMonth t.year t.month ∧
  t.hour ≤ 23 ∧ t.minute ≤ 59 ∧ t.second ≤ 59 ∧ t.microsecond ≤ 999999

instance (t : Datetime) : Decidable (ValidDatetime t) := by
  unfold ValidDatetime; infer_instance

/-- The decimal digit `d` as a character (`0 ≤ d ≤ 9`). -/
def digitChar (d : Nat) : Char := Char.ofNat (48 + d)

/-- The `n` printed in exactly `k` decimal digits, most significant first
(Python's `%04d`-style zero padding used by `isoformat`). -/
def padList : Nat → Nat → List Char
  | 0, _ => []
  | k + 1, n => digitChar (n / 10 ^ k) :: padList k (n % 10 ^ k)

/-- The `datetime.isoformat()` as a character list:
`YYYY-MM-DDTHH:MM:SS` plus `.ffffff` exactly when the microsecond field is
non-zero. -/
def isoformatList (t : Datetime) : List Char :=
  padList 4 t.year ++ ('-' :: (padList 2 t.month ++ ('-' :: (padList 2 t.day ++
    ('T' :: (padList 2 t.hour ++ (':' :: (padList 2 t.minute ++ (':' ::
      (padList 2 t.second ++
        (if t.microsecond = 0 then [] else '.' :: padList 6 t.microsecond)))))))))))

/-- The `datetime.isoformat()`. -/
def isoformat (t : Datetime) : String := String.mk (isoformatList t)

/-- Read exactly `k` decimal digits, accumulating their value. -/
def parseNumAux : Nat → Nat → List Char → Option (Nat × List Char)
  | 0, acc, cs => some (acc, cs)
  | _ + 1, _, [] => none
  | k + 1, acc, c :: cs =>
    if c.isDigit then parseNumAux k (acc * 10 + (c.toNat - 48)) cs else none

/-- Consume one expected punctuation character. -/
def expectChar (c : Char) : List Char → Option (List Char)
  | [] => none
  | x :: xs => if x = c then some xs else none

/-- The `datetime.fromisoformat` on the strings `isoformat` produces: parse the
padded fields, an optional `.ffffff` fraction, and validate the ranges the
`datetime` constructor enforces (anything else raises in Python, modelled by
`none`). -/
def fromisoformatList (cs : List Char) : Option Datetime := do
  let (y, cs) ← parseNumAux 4 0 cs
  let cs ← expectChar '-' cs
  let (mo, cs) ← parseNumAux 2 0 cs
  let cs ← expectChar '-' cs
  let (d, cs) ← parseNumAux 2 0 cs
  let cs ← expectChar 'T' cs
  let (h, cs) ← parseNumAux 2 0 cs
  let cs ← expectChar ':' cs
  let (mi, cs) ← parseNumAux 2 0 cs
  let cs ← expectChar ':' cs
  let (s, cs) ← parseNumAux 2 0 cs
  match cs with
  | [] =>
    let t : Datetime := ⟨y, mo, d, h, mi, s, 0⟩
    if ValidDatetime t then some t else none
  | '.' :: rest => do
    let (us, r) ← parseNumAux 6 0 rest
    if r.isEmpty then
      let t : Datetime := ⟨y, mo, d, h, mi, s, us⟩
      if ValidDatetime t then some t else none
    else none
  | _ => none

/-- The `datetime.fromisoformat`. -/
def fromisoformat (s : String) : Option Datetime := fromisoformatList s.data

/-- One chat message of a session (`{"role": …, "content": …}`). -/
structure ChatMessage where
  role : String
  content : String
deriving DecidableEq, Repr

/-- An in-memory session record: `{"messages": …, "created_at": datetime,
"title": …}`. -/
structure Session where
  messages : List ChatMessage
  createdAt : Datetime
  title : String
deriving DecidableEq, Repr

/-- The on-disk (JSON) form of a session: `created_at` replaced by its
`isoformat` string. -/
structure SerializedSession where
  messages : List ChatMessage
  createdAt : String
  title : String
deriving DecidableEq, Repr

/-- The `chat_sessions` directory, as a map from session id to stored file. -/
def SessionStore := String → Option SerializedSession

/-- The `save_session`: write the serialised record under the session id. -/
def saveSession (σ : SessionStore) (sid : String) (s : Session) : SessionStore :=
  fun k =>
    if k = sid then some ⟨s.messages, isoformat s.createdAt, s.title⟩ else σ k

/-- The `load_session`: read the record and parse `created_at` back; `None` when
the file is missing or parsing raises. -/
def loadSession (σ : SessionStore) (sid : String) : Option Session :=
  match σ sid with
  | none => none
  | some d =>
    match fromisoformat d.createdAt with
    | none => none
    | some t => some ⟨d.messages, t, d.title⟩

/-- Chronological order on `Datetime` (Python compares datetimes
field-lexicographically). -/
def dtLt (a b : Datetime) : Prop :=
  a.year < b.year ∨ (a.year = b.year ∧
    (a.month < b.month ∨ (a.month = b.month ∧
      (a.day < b.day ∨ (a.day = b.day ∧
        (a.hour < b.hour ∨ (a.hour = b.hour ∧
          (a.minute < b.minute ∨ (a.minute = b.minute ∧
            (a.second < b.second ∨ (a.second = b.second ∧
              a.microsecond < b.microsecond)))))))))))

instance (a b : Datetime) : Decidable (dtLt a b) := by
  unfold dtLt; infer_instance

/-! ## Shared concrete data for witnesses and counterexamples -/

/-- An arbitrary environment: empty retrieval, zero scores, empty answers. -/
def trivialEnv : Env :=
  { retrieve := fun _ => .ok []
  , score := fun _ _ => 0
  , llm := fun _ => .ok "" }

/-- A dummy conversation exchange. -/
def exchange0 : Exchange := ⟨"q", "a", "general", 0⟩

/-- Environment for C1: two retrieved documents whose scores (0.2 and 0.3)
are both below the threshold, with the *second* document scoring higher. -/
def c1Env : Env :=
  { retrieve := fun _ => .ok []
  , score := fun _ c => if c = "beta" then mkRat 3 10 else mkRat 1 5
  , llm := fun _ => .ok "" }


/-- State for C1 after retrieving the two documents. -/
def c1State : PState :=
  { initState "hello there" [] with vectorResults := [⟨"alpha"⟩, ⟨"beta"⟩] }


/-- The single grounding chunk retrieved in the C2 scenario. -/
def medDoc : Doc := ⟨"chunk about medicine"⟩


/-- Environment for C2: one highly-scored chunk and an LLM answer to a
medical query that carries no disclaimer, so the response check fails. -/
def envMed : Env :=
  { retrieve := fun _ => .ok [medDoc]
  , score := fun _ _ => mkRat 9 10
  , llm := fun _ => .ok "Take two pills daily." }


/-- Environment for C5: the retriever raises and the LLM answers with the
empty string. -/
def envFail : Env :=
  { retrieve := fun _ => .error "connection refused"
  , score := fun _ _ => 0
  , llm := fun _ => .ok "" }


/-! ## Theorems -/

/-- Claim C8. The memory-update stage caps the conversation memory at 20 turns,
is a FIFO (the kept turns are a suffix of the appended list, so the oldest
turns are the ones evicted), appends without eviction below the cap, and on a
full 20-turn memory evicts exactly the oldest turn while preserving the order
of the remaining ones. -/
theorem memory_capped_fifo (st : PState) :
    (memoryUpdateNode st).memory.length ≤ 20 ∧
    (memoryUpdateNode st).memory <:+ st.memory ++ [mkExchange st] ∧
    (st.memory.length ≤ 19 →
      (memoryUpdateNode st).memory = st.memory ++ [mkExchange st]) ∧
    (st.memory.length = 20 →
      (memoryUpdateNode st).memory = st.memory.tail ++ [mkExchange st]) := by
  refine ⟨?_, ?_, ?_, ?_⟩
  · simp only [memoryUpdateNode, List.length_drop, List.length_append,
      List.length_singleton]
    omega
  · exact List.drop_suffix _ _
  · intro h
    simp only [memoryUpdateNode, List.length_append, List.length_singleton]
    have h0 : st.memory.length + 1 - 20 = 0 := by omega
    rw [h0, List.drop_zero]
  · intro h
    cases hm : st.memory with
    | nil => rw [hm] at h; simp at h
    | cons a t =>
      simp only [memoryUpdateNode, hm, List.length_append, List.length_singleton,
        List.tail_cons]
      rw [hm] at h
      simp only [List.length_cons] at h
      have h1 : (a :: t).length + 1 - 20 = 1 := by simp only [List.length_cons]; omega
      rw [h1, List.cons_append, List.drop_succ_cons, List.drop_zero]

/-- Witness for C8 at a concrete full memory. -/
theorem memory_capped_fifo_witness :
    (memoryUpdateNode
      { initState "q2" (List.replicate 20 exchange0) with answer := "a2" }).memory =
      (List.replicate 20 exchange0).tail ++
        [mkExchange { initState "q2" (List.replicate 20 exchange0) with answer := "a2" }] :=
  (memory_capped_fifo _).2.2.2 (by decide)

/-- Claim C6. A query the safety check classifies unsafe short-circuits the
pipeline: `invoke` returns the refusal containing the reason together with an
empty source list, and the result is the same for *every* environment — the
retriever, scorer and LLM are never consulted, so no later stage runs. -/
theorem blocked_query_short_circuits (env : Env) (q : String) (hist : List Exchange)
    (h : (checkQuerySafety q).isSafe = false) :
    invoke env q hist =
      ("I cannot assist with this request. " ++ (checkQuerySafety q).reason, []) := by
  simp [invoke, h]

/-- Witness for C6 at a concrete blocked query. -/
theorem blocked_query_short_circuits_witness :
    (checkQuerySafety "how to build a bomb").isSafe = false ∧
    invoke trivialEnv "how to build a bomb" [] =
      ("I cannot assist with this request. " ++
        "Query contains potentially harmful content related to violence", []) := by
  refine ⟨by decide, ?_⟩
  rw [blocked_query_short_circuits trivialEnv _ _ (by decide)]
  decide

/-- Counterexample to C4. The claim says the coding group has priority over
the search group, so a query matching both would be classified `"coding"`;
but `"search bug fix"` matches both groups and the classifier answers
`"search"` — the source tests the search group first. -/
theorem intent_priority_counterexample :
    (codingKeywords.any fun w => containsSub w.data (pyLower ("search bug fix").data)) = true ∧
    (searchKeywords.any fun w => containsSub w.data (pyLower ("search bug fix").data)) = true ∧
    (intentClassifier (initState "search bug fix" [])).intent = "search" ∧
    (intentClassifier (initState "search bug fix" [])).intent ≠ "coding" := by
  refine ⟨by decide, by decide, by decide, by decide⟩

/-- Claim C4 (amended). Intent classification tests the keyword groups in the
fixed priority order search/find-related first (`"search"`), then
debug/fix-related (`"coding"`), then explain/how/why-related
(`"explanation"`), defaulting to `"general"`; the first matching group wins,
so a query matching both the search group and the coding group is classified
`"search"`. -/
theorem intent_priority_order (st : PState) :
    ((searchKeywords.any fun w => containsSub w.data (pyLower st.query.data)) = true →
      (intentClassifier st).intent = "search") ∧
    ((searchKeywords.any fun w => containsSub w.data (pyLower st.query.data)) = false →
      (codingKeywords.any fun w => containsSub w.data (pyLower st.query.data)) = true →
      (intentClassifier st).intent = "coding") ∧
    ((searchKeywords.any fun w => containsSub w.data (pyLower st.query.data)) = false →
      (codingKeywords.any fun w => containsSub w.data (pyLower st.query.data)) = false →
      (explanationKeywords.any fun w => containsSub w.data (pyLower st.query.data)) = true →
      (intentClassifier st).intent = "explanation") ∧
    ((searchKeywords.any fun w => containsSub w.data (pyLower st.query.data)) = false →
      (codingKeywords.any fun w => containsSub w.data (pyLower st.query.data)) = false →
      (explanationKeywords.any fun w => containsSub w.data (pyLower st.query.data)) = false →
      (intentClassifier st).intent = "general") := by
  refine ⟨?_, ?_, ?_, ?_⟩ <;> intros <;> simp [intentClassifier, *]

/-- The `Char.ofNat` at a valid code point keeps the value. -/
theorem toNat_ofNat_valid {n : Nat} (h : n.isValidChar) : (Char.ofNat n).toNat = n := by
  rw [Char.ofNat, dif_pos h]
  rfl

/-- ASCII lower-casing does not create or destroy whitespace. -/
theorem isPySpace_toLower (c : Char) : isPySpace c.toLower = isPySpace c := by
  by_cases hsp : isPySpace c = true
  · have hd : ((((c = ' ' ∨ c = '\t') ∨ c = '\n') ∨ c = '\x0d') ∨ c = '\x0b') ∨ c = '\x0c' := by
      simpa [isPySpace] using hsp
    rw [or_assoc, or_assoc, or_assoc, or_assoc] at hd
    rcases hd with h | h | h | h | h | h <;> subst h <;> decide
  · rw [Bool.not_eq_true] at hsp
    rw [hsp]
    unfold Char.toLower
    by_cases hab : 65 ≤ c.toNat ∧ c.toNat ≤ 90
    · rw [if_pos hab]
      have hv : (c.toNat + 32).isValidChar := by
        left
        have := hab.2
        omega
      have ht : (Char.ofNat (c.toNat + 32)).toNat = c.toNat + 32 := toNat_ofNat_valid hv
      have h97 : 97 ≤ (Char.ofNat (c.toNat + 32)).toNat := by omega
      simp only [isPySpace, Bool.or_eq_false_iff, decide_eq_false_iff_not]
      refine ⟨⟨⟨⟨⟨?_, ?_⟩, ?_⟩, ?_⟩, ?_⟩, ?_⟩ <;>
        · intro he
          rw [he] at h97
          simp at h97
    · rw [if_neg hab]
      exact hsp

/-- Dropping leading whitespace ignores an all-whitespace block in front. -/
theorem pyStrip_append_left {w l : List Char} (h : ∀ c ∈ w, isPySpace c) :
    pyStrip (w ++ l) = pyStrip l := by
  unfold pyStrip
  rw [List.dropWhile_append_of_pos h]

/-- Stripping ignores an all-whitespace block at the back. -/
theorem pyStrip_append_right {l w : List Char} (h : ∀ c ∈ w, isPySpace c) :
    pyStrip (l ++ w) = pyStrip l := by
  unfold pyStrip
  rw [List.dropWhile_append]
  by_cases he : (l.dropWhile isPySpace).isEmpty
  · rw [if_pos he]
    rw [List.isEmpty_iff] at he
    rw [he, List.dropWhile_eq_nil_iff.2 h]
  · rw [if_neg he]
    rw [List.reverse_append,
      List.dropWhile_append_of_pos (fun c hc => h c (List.mem_reverse.1 hc))]

/-- Stripping ignores whitespace padding on both sides. -/
theorem pyStrip_sandwich {w1 core w2 : List Char}
    (h1 : ∀ c ∈ w1, isPySpace c) (h2 : ∀ c ∈ w2, isPySpace c) :
    pyStrip (w1 ++ core ++ w2) = pyStrip core := by
  rw [List.append_assoc, pyStrip_append_left h1, pyStrip_append_right h2]

/-- Claim C10. Two queries that differ only in letter case, or only in
leading/trailing whitespace, get the same safety verdict and the same
reason: `check_query_safety` lower-cases and strips the query before any
rule is applied. -/
theorem query_safety_case_whitespace_invariant (q1 q2 : String)
    (h : pyLower q1.data = pyLower q2.data ∨
      ∃ w1 w2 w3 w4 core,
        (∀ c ∈ w1, isPySpace c) ∧ (∀ c ∈ w2, isPySpace c) ∧
        (∀ c ∈ w3, isPySpace c) ∧ (∀ c ∈ w4, isPySpace c) ∧
        q1.data = w1 ++ core ++ w2 ∧ q2.data = w3 ++ core ++ w4) :
    checkQuerySafety q1 = checkQuerySafety q2 := by
  have hnorm : normQuery q1 = normQuery q2 := by
    rcases h with h | ⟨w1, w2, w3, w4, core, hw1, hw2, hw3, hw4, he1, he2⟩
    · unfold normQuery
      rw [h]
    · have hl : ∀ w : List Char, (∀ c ∈ w, isPySpace c) → ∀ c ∈ pyLower w, isPySpace c := by
        intro w hw c hc
        rcases List.mem_map.1 hc with ⟨x, hx, rfl⟩
        rw [isPySpace_toLower]
        exact hw x hx
      unfold normQuery pyLower
      rw [he1, he2]
      simp only [List.map_append]
      calc pyStrip (w1.map Char.toLower ++ core.map Char.toLower ++ w2.map Char.toLower)
          = pyStrip (core.map Char.toLower) :=
            pyStrip_sandwich (hl w1 hw1) (hl w2 hw2)
        _ = pyStrip (w3.map Char.toLower ++ core.map Char.toLower ++ w4.map Char.toLower) :=
            (pyStrip_sandwich (hl w3 hw3) (hl w4 hw4)).symm
  unfold checkQuerySafety
  rw [hnorm]

/-- Witness for C10: a case variant and a whitespace variant of the same
query. -/
theorem query_safety_case_whitespace_invariant_witness :
    checkQuerySafety "Hello World" = checkQuerySafety "hello world" ∧
    checkQuerySafety "  hello world " = checkQuerySafety "hello world" := by
  constructor
  · exact query_safety_case_whitespace_invariant _ _ (Or.inl (by decide))
  · refine query_safety_case_whitespace_invariant _ _ (Or.inr ?_)
    refine ⟨[' ', ' '], [' '], [], [], "hello world".data, ?_, ?_, ?_, ?_, by decide, by decide⟩
    all_goals decide

/-- Helper: a run of the re-ranking stage on a single retrieved document that
passes the threshold keeps that document and records its score. -/
theorem rerankerNode_singleton (env : Env) (st : PState) (d : Doc)
    (h : st.vectorResults = [d])
    (hs : rerankingThreshold ≤ env.score st.query d.pageContent) :
    rerankerNode env st = { st with
      rerankedResults := [d],
      confidence := env.score st.query d.pageContent } := by
  simp [rerankerNode, h, List.mergeSort_singleton, hs, topKResults]

/-- Helper: appending to a non-empty string is non-empty. -/
theorem append_ne_empty (a b : String) (ha : a ≠ "") : a ++ b ≠ "" := by
  intro hab
  apply ha
  apply String.ext
  have hd := congrArg String.data hab
  rw [String.data_append] at hd
  exact (List.append_eq_nil.1 hd).1

/-- Helper: the answer after a full graph run is the generator's answer
(memory update does not touch it). -/
theorem runGraph_answer (env : Env) (st : PState) :
    (runGraph env st).answer =
      (answerGeneratorNode env (rerankerNode env (vectorRagNode env (intentClassifier st)))).answer :=
  rfl

/-- Helper: the generator returns the LLM answer, or the error message on an
LLM exception. -/
theorem answerGeneratorNode_answer (env : Env) (st : PState) :
    (answerGeneratorNode env st).answer =
      match env.llm (buildPrompt (buildContext st.rerankedResults) st.query) with
      | .ok a => a
      | .error e => "Error generating answer: " ++ e := by
  cases hl : env.llm (buildPrompt (buildContext st.rerankedResults) st.query) <;>
    simp [answerGeneratorNode, hl]

/-- Counterexample to C1. With scores 0.2 and 0.3 (threshold 0.5), no
candidate survives, yet the recorded confidence is 0.2 — the score of the
first *retrieved* candidate (`scores[0]`, taken before sorting) — not 0.0 as
the claim states, and not the top-ranked candidate's 0.3 either. -/
theorem reranker_confidence_counterexample :
    (rerankerNode c1Env c1State).rerankedResults = [] ∧
    (rerankerNode c1Env c1State).confidence = mkRat 1 5 ∧ mkRat 1 5 ≠ 0 := by
  refine ⟨?_, by decide, by decide⟩
  show ((((c1State.vectorResults.zip (c1State.vectorResults.map fun d =>
      c1Env.score c1State.query d.pageContent)).mergeSort scoreLE).filter fun x =>
      decide (rerankingThreshold ≤ x.2)).map Prod.fst).take topKResults = []
  have hall : ∀ x ∈ (c1State.vectorResults.zip (c1State.vectorResults.map fun d =>
      c1Env.score c1State.query d.pageContent)).mergeSort scoreLE,
      ¬ ((decide (rerankingThreshold ≤ x.2)) = true) := by
    intro x hx
    rw [List.mem_mergeSort] at hx
    fin_cases hx <;> decide
  rw [List.filter_eq_nil_iff.2 hall]
  rfl

/-- Claim C1 (amended). The confidence recorded by the re-ranking stage is the
relevance score of the *first retrieved* candidate whenever the candidate
list is non-empty — regardless of ranking and of the threshold filter — and
is left unchanged (hence 0.0 from the initial state) when the candidate list
is empty. -/
theorem reranker_confidence_first_retrieved (env : Env) (st : PState) :
    (st.vectorResults = [] → (rerankerNode env st).confidence = st.confidence) ∧
    (∀ d rest, st.vectorResults = d :: rest →
      (rerankerNode env st).confidence = env.score st.query d.pageContent) := by
  constructor
  · intro h
    simp [rerankerNode, h]
  · intro d rest h
    simp [rerankerNode, h]

/-- Witness for C1 (amended) at the concrete two-document state. -/
theorem reranker_confidence_first_retrieved_witness :
    (rerankerNode c1Env c1State).confidence = mkRat 1 5 := by
  have h := (reranker_confidence_first_retrieved c1Env c1State).2 ⟨"alpha"⟩ [⟨"beta"⟩] rfl
  rw [h]
  decide

/-- Counterexample to C2. A generated answer that fails the response safety
check is replaced by the refusal, but the returned source list is *not*
empty: `invoke` still returns `result["reranked_results"]`, so the unsafe
grounding chunks are surfaced. -/
theorem unsafe_response_counterexample :
    invoke envMed "health treatment info" [] =
      ("I need to be careful here. Medical query response lacks proper disclaimers",
        [medDoc]) ∧
    [medDoc] ≠ ([] : List Doc) := by
  refine ⟨?_, by decide⟩
  have h1 : intentClassifier (initState "health treatment info" []) =
      ⟨"health treatment info", "general", [], [], "", [], 0, none⟩ := by decide
  have h2 : vectorRagNode envMed
      ⟨"health treatment info", "general", [], [], "", [], 0, none⟩ =
      ⟨"health treatment info", "general", [medDoc], [], "", [], 0, none⟩ := by decide
  have h3 := rerankerNode_singleton envMed
    ⟨"health treatment info", "general", [medDoc], [], "", [], 0, none⟩ medDoc rfl (by decide)
  simp only [invoke, runGraph]
  rw [h1, h2, h3]
  decide

/-- Claim C2 (amended). When the generated answer fails the response safety
check, the pipeline entry point returns a refusal answer that includes the
safety reason, but it returns the re-ranked chunk list as sources unchanged
— the grounding chunks are *not* discarded. -/
theorem unsafe_response_keeps_sources (env : Env) (q : String) (hist : List Exchange)
    (hq : (checkQuerySafety q).isSafe = true)
    (hr : (checkResponseSafety (runGraph env (initState q hist)).answer q).isSafe = false) :
    invoke env q hist =
      ("I need to be careful here. " ++
        (checkResponseSafety (runGraph env (initState q hist)).answer q).reason,
       (runGraph env (initState q hist)).rerankedResults) := by
  simp [invoke, hq, hr]

/-- Witness for C2 (amended) in the concrete medical scenario. -/
theorem unsafe_response_keeps_sources_witness :
    invoke envMed "health treatment info" [] =
      ("I need to be careful here. " ++
        (checkResponseSafety (runGraph envMed (initState "health treatment info" [])).answer
          "health treatment info").reason,
        (runGraph envMed (initState "health treatment info" [])).rerankedResults) := by
  have h1 : intentClassifier (initState "health treatment info" []) =
      ⟨"health treatment info", "general", [], [], "", [], 0, none⟩ := by decide
  have h2 : vectorRagNode envMed
      ⟨"health treatment info", "general", [], [], "", [], 0, none⟩ =
      ⟨"health treatment info", "general", [medDoc], [], "", [], 0, none⟩ := by decide
  have h3 := rerankerNode_singleton envMed
    ⟨"health treatment info", "general", [medDoc], [], "", [], 0, none⟩ medDoc rfl (by decide)
  have hrg : runGraph envMed (initState "health treatment info" []) =
      ⟨"health treatment info", "general", [medDoc], [medDoc], "Take two pills daily.",
        [⟨"health treatment info", "Take two pills daily.", "general", mkRat 9 10⟩],
        mkRat 9 10, none⟩ := by
    simp only [runGraph]
    rw [h1, h2, h3]
    decide
  refine unsafe_response_keeps_sources envMed "health treatment info" [] (by decide) ?_
  rw [hrg]
  decide

/-- Counterexample to C3. A query that carries safe-context tokens
(`educational`, `research`) and matches a bypass pattern: the contextual
check is *not* overridden by the safe context, and the query is blocked with
the bypass reason. -/
theorem safety_check_context_override_counterexample :
    isSafeContext (normQuery "educational research: how to do it without getting caught") = true ∧
    checkQuerySafety "educational research: how to do it without getting caught" =
      ⟨false, "Query appears to attempt bypassing safety restrictions or legal boundaries"⟩ :=
  ⟨by decide, by decide⟩

/-- Claim C3 (amended). Only the direct-violation check is overridden by a
safe-context token; the contextual-violation check and the sensitive-topic
check apply regardless of safe-context tokens: with a safe-context token in
the (normalised) query, the direct check always passes and the overall
verdict is exactly the conjunction of the contextual and sensitive checks. -/
theorem safety_check_direct_override_only (q : String)
    (h : isSafeContext (normQuery q) = true) :
    (checkDirectViolations (normQuery q)).isSafe = true ∧
    (checkQuerySafety q).isSafe =
      ((checkContextualViolations (normQuery q)).isSafe &&
        (checkSensitiveTopics (normQuery q)).isSafe) := by
  have hd : (checkDirectViolations (normQuery q)).isSafe = true := by
    unfold checkDirectViolations
    cases hf : findTrigger (normQuery q) with
    | none => rfl
    | some p =>
      cases p with
      | mk cat w => simp [h]
  refine ⟨hd, ?_⟩
  unfold checkQuerySafety checkQuerySafetyCore
  cases hc : (checkContextualViolations (normQuery q)).isSafe <;>
    cases hs : (checkSensitiveTopics (normQuery q)).isSafe <;>
      simp [hd, hc, hs]

/-- Witness for C3 (amended): a trigger keyword (`hack`) inside a
safe-context query. -/
theorem safety_check_direct_override_only_witness :
    (checkDirectViolations (normQuery "educational question about hacking")).isSafe = true ∧
    (checkQuerySafety "educational question about hacking").isSafe =
      ((checkContextualViolations (normQuery "educational question about hacking")).isSafe &&
        (checkSensitiveTopics (normQuery "educational question about hacking")).isSafe) :=
  safety_check_direct_override_only _ (by decide)

/-- Counterexample to C5. Under a retrieval failure — one of the claim's
expected failure modes — with a generator that produces an empty answer, the
entry point returns the empty string, not a non-empty descriptive answer. -/
theorem ask_nonempty_counterexample :
    envFail.retrieve "hello there" = .error "connection refused" ∧
    askQuestion envFail "hello there" [] = ("", []) :=
  ⟨rfl, by decide⟩

/-- Claim C5 (amended). The entry point is total on the embedded failure modes
(safety block, retrieval failure, generation failure are all values, never
exceptions) and always returns an answer string with a (possibly empty)
source list; the answer can only be empty when the query passed the safety
check *and* the LLM itself returned an empty answer — for a blocked query or
a generation failure the answer is always non-empty. -/
theorem ask_total_answer_nonempty (env : Env) (q : String) (hist : List Exchange)
    (h : (askQuestion env q hist).1 = "") :
    (checkQuerySafety q).isSafe = true ∧ ∃ p, env.llm p = Except.ok "" := by
  unfold askQuestion invoke at h
  by_cases hq : (checkQuerySafety q).isSafe = true
  · refine ⟨hq, ?_⟩
    simp only [hq, Bool.not_true, Bool.false_eq_true, if_false] at h
    by_cases hr : (checkResponseSafety (runGraph env (initState q hist)).answer q).isSafe = true
    · simp only [hr, Bool.not_true, Bool.false_eq_true, if_false] at h
      rw [runGraph_answer, answerGeneratorNode_answer] at h
      cases hl : env.llm (buildPrompt
          (buildContext (rerankerNode env (vectorRagNode env (intentClassifier (initState q hist)))).rerankedResults)
          (rerankerNode env (vectorRagNode env (intentClassifier (initState q hist)))).query) with
      | ok a =>
        simp only [hl] at h
        exact ⟨_, h ▸ hl⟩
      | error e =>
        simp only [hl] at h
        exact absurd h (append_ne_empty _ _ (by decide))
    · rw [Bool.not_eq_true] at hr
      simp only [hr, Bool.not_false, if_true] at h
      exact absurd h (append_ne_empty _ _ (by decide))
  · rw [Bool.not_eq_true] at hq
    simp only [hq, Bool.not_false, if_true] at h
    exact absurd h (append_ne_empty _ _ (by decide))

/-- Witness for C5 (amended): an environment whose LLM answers with the
empty string on a safe query. -/
theorem ask_total_answer_nonempty_witness :
    (checkQuerySafety "hello there").isSafe = true ∧ ∃ p, trivialEnv.llm p = Except.ok "" :=
  ask_total_answer_nonempty trivialEnv "hello there" [] (by decide)

/-- Witness for C4 (amended) at concrete queries from each priority tier. -/
theorem intent_priority_order_witness :
    (intentClassifier (initState "search bug fix" [])).intent = "search" ∧
    (intentClassifier (initState "please debug this" [])).intent = "coding" ∧
    (intentClassifier (initState "what time is it" [])).intent = "general" :=
  ⟨(intent_priority_order _).1 (by decide),
   (intent_priority_order _).2.1 (by decide) (by decide),
   (intent_priority_order _).2.2.2 (by decide) (by decide) (by decide)⟩

/-- Helper: zipping a list with its mapped scores tags each element with its
score (`zip(results, scores)` with `scores = predict(pairs)`). -/
theorem zip_map_self {α β : Type} (f : α → β) (l : List α) :
    l.zip (l.map f) = l.map fun a => (a, f a) := by
  induction l with
  | nil => rfl
  | cons a t ih => simp [ih]

/-- The descending comparison is transitive. -/
theorem scoreLE_trans : ∀ a b c : Doc × ℚ, scoreLE a b → scoreLE b c → scoreLE a c := by
  intro a b c hab hbc
  simp only [scoreLE, decide_eq_true_eq] at *
  exact le_trans hbc hab

/-- The descending comparison is total. -/
theorem scoreLE_total : ∀ a b : Doc × ℚ, scoreLE a b || scoreLE b a := by
  intro a b
  simp only [scoreLE]
  rcases le_total a.2 b.2 with h | h <;> simp [h]

/-- Stability of the stable descending sort: the class of entries carrying
one given score comes out of the sort in exactly its input order. -/
theorem mergeSort_tie_filter (l : List (Doc × ℚ)) (s : ℚ) :
    (l.mergeSort scoreLE).filter (fun x => decide (x.2 = s)) =
      l.filter (fun x => decide (x.2 = s)) := by
  have hc : (l.filter (fun x => decide (x.2 = s))).Pairwise (fun a b => scoreLE a b) := by
    apply List.pairwise_of_forall_mem_list
    intro a ha b hb
    rw [List.mem_filter] at ha hb
    have ha2 : a.2 = s := of_decide_eq_true ha.2
    have hb2 : b.2 = s := of_decide_eq_true hb.2
    simp [scoreLE, ha2, hb2]
  have hsub : (l.filter (fun x => decide (x.2 = s))).Sublist (l.mergeSort scoreLE) :=
    List.sublist_mergeSort scoreLE_trans scoreLE_total hc (List.filter_sublist l)
  have hself : (l.filter (fun x => decide (x.2 = s))).filter (fun x => decide (x.2 = s)) =
      l.filter (fun x => decide (x.2 = s)) :=
    List.filter_eq_self.mpr fun a ha => (List.mem_filter.1 ha).2
  have hsub2 : (l.filter (fun x => decide (x.2 = s))).Sublist
      ((l.mergeSort scoreLE).filter (fun x => decide (x.2 = s))) := by
    have h2 := hsub.filter (fun x => decide (x.2 = s))
    rwa [hself] at h2
  have hlen : (l.filter (fun x => decide (x.2 = s))).length =
      ((l.mergeSort scoreLE).filter (fun x => decide (x.2 = s))).length :=
    (((List.mergeSort_perm l scoreLE).filter _).length_eq).symm
  exact (hsub2.eq_of_length hlen).symm

/-- Helper: mapping preserves list-prefixes. -/
theorem map_keeps_front {α β : Type} (f : α → β) {l₁ l₂ : List α} (h : l₁ <+: l₂) :
    l₁.map f <+: l₂.map f := by
  rcases h with ⟨t, ht⟩
  exact ⟨t.map f, by rw [← List.map_append, ht]⟩

/-- The properties of the re-ranking list pipeline (stable descending sort,
threshold filter, top-K truncation), stated for an arbitrary scoring
function. -/
theorem rerank_props (f : Doc → ℚ) (R out : List Doc)
    (hout : out = ((((R.map fun d => (d, f d)).mergeSort scoreLE).filter
      fun x => decide (rerankingThreshold ≤ x.2)).map Prod.fst).take topKResults) :
    ((out.map f).Pairwise fun a b => b ≤ a) ∧
    (∀ d ∈ out, rerankingThreshold ≤ f d) ∧
    out.length ≤ topKResults ∧
    out.length = min topKResults (R.filter fun d => decide (rerankingThreshold ≤ f d)).length ∧
    (∀ s : ℚ, (out.filter fun d => decide (f d = s)) <+:
      (R.filter fun d => decide (f d = s))) := by
  have hout2 : out = ((((R.map fun d => (d, f d)).mergeSort scoreLE).filter
      fun x => decide (rerankingThreshold ≤ x.2)).take topKResults).map Prod.fst := by
    rw [hout, List.map_take]
  clear hout
  set g := fun d : Doc => (d, f d) with hg
  set M := (R.map g).mergeSort scoreLE with hM
  set A := M.filter (fun x => decide (rerankingThreshold ≤ x.2)) with hA
  have hMperm : M.Perm (R.map g) := List.mergeSort_perm _ _
  have hMsnd : ∀ x ∈ M, x.2 = f x.1 := by
    intro x hx
    have hx2 : x ∈ R.map g := hMperm.subset hx
    rcases List.mem_map.1 hx2 with ⟨d, _, rfl⟩
    rfl
  have hMsort : M.Pairwise (fun a b => scoreLE a b) :=
    List.sorted_mergeSort scoreLE_trans scoreLE_total _
  have hAmem : ∀ x ∈ A.take topKResults, x ∈ M := fun x hx =>
    (List.filter_sublist M).subset ((List.take_sublist _ _).subset hx)
  have hthr : ∀ d ∈ out, rerankingThreshold ≤ f d := by
    intro d hd
    rw [hout2] at hd
    rcases List.mem_map.1 hd with ⟨x, hx, rfl⟩
    have hxA : x ∈ A := (List.take_sublist _ _).subset hx
    have hpx := (List.mem_filter.1 hxA).2
    have hx2 : x.2 = f x.1 := hMsnd x (hAmem x hx)
    rw [hx2] at hpx
    exact of_decide_eq_true hpx
  refine ⟨?_, hthr, ?_, ?_, ?_⟩
  · rw [hout2, List.map_map, List.pairwise_map]
    have hT : (A.take topKResults).Pairwise (fun a b => scoreLE a b) :=
      List.Pairwise.sublist (List.take_sublist _ _) (List.Pairwise.filter _ hMsort)
    refine List.Pairwise.imp_of_mem ?_ hT
    intro a b ha hb hab
    have ha2 : a.2 = f a.1 := hMsnd a (hAmem a ha)
    have hb2 : b.2 = f b.1 := hMsnd b (hAmem b hb)
    have hle : b.2 ≤ a.2 := of_decide_eq_true hab
    rw [ha2, hb2] at hle
    exact hle
  · rw [hout2, List.length_map, List.length_take]
    exact Nat.min_le_left _ _
  · rw [hout2, List.length_map, List.length_take]
    congr 1
    calc A.length
        = ((R.map g).filter (fun x => decide (rerankingThreshold ≤ x.2))).length :=
          (hMperm.filter _).length_eq
      _ = ((R.filter fun d => decide (rerankingThreshold ≤ f d)).map g).length := by
          rw [List.filter_map]
          rfl
      _ = (R.filter fun d => decide (rerankingThreshold ≤ f d)).length :=
        List.length_map _ _
  · intro s
    by_cases hs : rerankingThreshold ≤ s
    · have e1 : (out.filter fun d => decide (f d = s)) =
          ((A.take topKResults).filter fun x => decide (f x.1 = s)).map Prod.fst := by
        rw [hout2, List.filter_map]
        rfl
      have e2 : ((A.take topKResults).filter fun x => decide (f x.1 = s)) <+:
          (A.filter fun x => decide (f x.1 = s)) := by
        refine ⟨(A.drop topKResults).filter fun x => decide (f x.1 = s), ?_⟩
        rw [← List.filter_append, List.take_append_drop]
      have e3 : (A.filter fun x => decide (f x.1 = s)) =
          M.filter (fun x => decide (x.2 = s)) := by
        rw [hA, List.filter_filter]
        refine List.filter_congr ?_
        intro x hx
        have hx2 : x.2 = f x.1 := hMsnd x hx
        by_cases hxs : x.2 = s
        · have h1 : decide (f x.1 = s) = true := by rw [← hx2]; exact decide_eq_true hxs
          have h2 : decide (rerankingThreshold ≤ x.2) = true := by
            rw [hxs]; exact decide_eq_true hs
          rw [h1, h2, decide_eq_true hxs]
          rfl
        · have h1 : decide (f x.1 = s) = false := by
            rw [← hx2]; exact decide_eq_false hxs
          rw [h1, decide_eq_false hxs]
          rfl
      have e4 : M.filter (fun x => decide (x.2 = s)) =
          (R.map g).filter (fun x => decide (x.2 = s)) := mergeSort_tie_filter _ s
      have e5 : (R.map g).filter (fun x => decide (x.2 = s)) =
          (R.filter fun d => decide (f d = s)).map g := by
        rw [List.filter_map]
        rfl
      have e6 : ((R.filter fun d => decide (f d = s)).map g).map Prod.fst =
          R.filter fun d => decide (f d = s) := by
        rw [List.map_map]
        exact List.map_id _
      rw [e1]
      have hfin := map_keeps_front Prod.fst e2
      rw [e3, e4, e5, e6] at hfin
      exact hfin
    · have hempty : (out.filter fun d => decide (f d = s)) = [] := by
        rw [List.filter_eq_nil_iff]
        intro d hd hds
        have h1 : f d = s := of_decide_eq_true hds
        exact hs (h1 ▸ hthr d hd)
      rw [hempty]
      exact ⟨_, rfl⟩

/-- Claim C7. The re-ranking stage scores every `(query, candidate-text)` pair
via the environment scorer; its output is sorted descending by score; ties
preserve original retrieval order (every equal-score class of the output is
a prefix of that class in retrieval order); every kept candidate reaches the
relevance threshold (default 0.5); and the output is truncated to at most
top-K (default 5) candidates — exactly `min K (number of survivors)` of
them. -/
theorem reranker_scores_sorts_filters_truncates (env : Env) (st : PState) :
    ((((rerankerNode env st).rerankedResults.map fun d =>
        env.score st.query d.pageContent).Pairwise fun a b => b ≤ a)) ∧
    (∀ d ∈ (rerankerNode env st).rerankedResults,
      rerankingThreshold ≤ env.score st.query d.pageContent) ∧
    (rerankerNode env st).rerankedResults.length ≤ topKResults ∧
    (rerankerNode env st).rerankedResults.length =
      min topKResults (st.vectorResults.filter fun d =>
        decide (rerankingThreshold ≤ env.score st.query d.pageContent)).length ∧
    (∀ s : ℚ, ((rerankerNode env st).rerankedResults.filter fun d =>
        decide (env.score st.query d.pageContent = s)) <+:
      (st.vectorResults.filter fun d =>
        decide (env.score st.query d.pageContent = s))) := by
  by_cases hE : st.vectorResults.isEmpty
  · have hnil : st.vectorResults = [] := List.isEmpty_iff.1 hE
    have hr : (rerankerNode env st).rerankedResults = [] := by
      simp [rerankerNode, hE]
    rw [hr, hnil]
    simp
  · have hout : (rerankerNode env st).rerankedResults =
        ((((st.vectorResults.map fun d => (d, env.score st.query d.pageContent)).mergeSort
          scoreLE).filter fun x => decide (rerankingThreshold ≤ x.2)).map Prod.fst).take
          topKResults := by
      simp only [rerankerNode, hE, Bool.false_eq_true, if_false]
      rw [zip_map_self]
    exact rerank_props _ _ _ hout

/-- A decimal digit prints as a digit character. -/
theorem digitChar_isDigit {d : Nat} (h : d < 10) : (digitChar d).isDigit = true := by
  interval_cases d <;> decide

/-- The code point of a printed decimal digit. -/
theorem digitChar_toNat {d : Nat} (h : d < 10) : (digitChar d).toNat = 48 + d := by
  interval_cases d <;> decide

/-- Reading back a zero-padded `k`-digit number recovers its value and
leaves the rest of the input untouched. -/
theorem parseNumAux_padList (k : Nat) : ∀ (acc n : Nat) (rest : List Char), n < 10 ^ k →
    parseNumAux k acc (padList k n ++ rest) = some (acc * 10 ^ k + n, rest) := by
  induction k with
  | zero =>
    intro acc n rest h
    have hn : n = 0 := by simpa using h
    subst hn
    simp [padList, parseNumAux]
  | succ k ih =>
    intro acc n rest h
    have hpos : 0 < 10 ^ k := Nat.pos_pow_of_pos k (by omega)
    have hd : n / 10 ^ k < 10 := by
      rw [Nat.div_lt_iff_lt_mul hpos]
      rw [pow_succ, Nat.mul_comm (10 ^ k) 10] at h
      exact h
    rw [padList, List.cons_append, parseNumAux,
      if_pos (digitChar_isDigit hd), digitChar_toNat hd]
    rw [Nat.add_sub_cancel_left]
    rw [ih (acc * 10 + n / 10 ^ k) (n % 10 ^ k) rest (Nat.mod_lt _ hpos)]
    congr 2
    have hnm : 10 ^ k * (n / 10 ^ k) + n % 10 ^ k = n := Nat.div_add_mod n (10 ^ k)
    calc (acc * 10 + n / 10 ^ k) * 10 ^ k + n % 10 ^ k
        = acc * (10 ^ k * 10) + (10 ^ k * (n / 10 ^ k) + n % 10 ^ k) := by ring
      _ = acc * 10 ^ (k + 1) + n := by rw [hnm, pow_succ]



/-- Consuming an expected punctuation character. -/
theorem expectChar_cons_self (c : Char) (r : List Char) :
    expectChar c (c :: r) = some r := by
  simp [expectChar]

/-- No month has more than 31 days. -/
theorem daysInMonth_le (y m : Nat) : daysInMonth y m ≤ 31 := by
  unfold daysInMonth
  split <;> first | omega | split <;> omega

/-- The `Option` bind on a present value. -/
theorem bind_some_eq {α β : Type} (a : α) (f : α → Option β) :
    ((some a : Option α) >>= f) = f a := rfl

/-- Round trip at the character-list level: parsing the `isoformat` output
of a valid datetime recovers the datetime exactly. -/
theorem fromisoformatList_isoformatList (t : Datetime) (h : ValidDatetime t) :
    fromisoformatList (isoformatList t) = some t := by
  obtain ⟨y, mo, d, hh, mi, s, us⟩ := t
  simp only [ValidDatetime] at h
  obtain ⟨h1, h2, h3, h4, h5, h6, h7, h8, h9, h10⟩ := h
  have hy : y < 10 ^ 4 := by norm_num; omega
  have hmo : mo < 10 ^ 2 := by norm_num; omega
  have hd : d < 10 ^ 2 := by
    have h31 := daysInMonth_le y mo
    norm_num
    omega
  have hhh : hh < 10 ^ 2 := by norm_num; omega
  have hmi : mi < 10 ^ 2 := by norm_num; omega
  have hs : s < 10 ^ 2 := by norm_num; omega
  have hus6 : us < 10 ^ 6 := by norm_num; omega
  by_cases hus : us = 0
  · subst hus
    have hv : ValidDatetime ⟨y, mo, d, hh, mi, s, 0⟩ := by
      simp only [ValidDatetime]
      exact ⟨h1, h2, h3, h4, h5, h6, h7, h8, h9, by omega⟩
    simp only [isoformatList, fromisoformatList,
      parseNumAux_padList, hy, hmo, hd, hhh, hmi, hs,
      bind_some_eq, expectChar_cons_self, zero_mul, zero_add, hv, ite_true]
  · have hv : ValidDatetime ⟨y, mo, d, hh, mi, s, us⟩ := by
      simp only [ValidDatetime]
      exact ⟨h1, h2, h3, h4, h5, h6, h7, h8, h9, h10⟩
    have p6 : parseNumAux 6 0 (padList 6 us) = some (us, []) := by
      have h66 := parseNumAux_padList 6 0 us [] hus6
      simpa using h66
    simp only [isoformatList, fromisoformatList, if_neg hus,
      parseNumAux_padList, hy, hmo, hd, hhh, hmi, hs, p6,
      bind_some_eq, expectChar_cons_self, zero_mul, zero_add,
      List.isEmpty_nil, hv, ite_true]



/-- Base-`e` digit comparison: comparing `e*q + r` numbers is lexicographic
in `(q, r)` when the remainders are in range. -/
theorem mul_add_lt_iff {e qa ra qb rb : Nat} (hra : ra < e) (hrb : rb < e) :
    e * qa + ra < e * qb + rb ↔ qa < qb ∨ (qa = qb ∧ ra < rb) := by
  have hm1 : e * (qa + 1) = e * qa + e := by ring
  have hm2 : e * (qb + 1) = e * qb + e := by ring
  constructor
  · intro h
    rcases Nat.lt_trichotomy qa qb with h1 | h1 | h1
    · exact Or.inl h1
    · subst h1
      exact Or.inr ⟨rfl, by omega⟩
    · exfalso
      have hh : e * (qb + 1) ≤ e * qa := Nat.mul_le_mul_left e h1
      omega
  · rintro (h1 | ⟨h1, h2⟩)
    · have hh : e * (qa + 1) ≤ e * qb := Nat.mul_le_mul_left e h1
      omega
    · subst h1
      omega

/-- Base-`e` digit equality is componentwise when the remainders are in
range. -/
theorem mul_add_eq_iff {e qa ra qb rb : Nat} (hra : ra < e) (hrb : rb < e) :
    e * qa + ra = e * qb + rb ↔ qa = qb ∧ ra = rb := by
  constructor
  · intro h
    have hlt1 := @mul_add_lt_iff e qa ra qb rb hra hrb
    have hlt2 := @mul_add_lt_iff e qb rb qa ra hrb hra
    have hn1 : ¬(qa < qb ∨ (qa = qb ∧ ra < rb)) := by
      rw [← hlt1]; omega
    have hn2 : ¬(qb < qa ∨ (qb = qa ∧ rb < ra)) := by
      rw [← hlt2]; omega
    constructor
    · omega
    · omega
  · rintro ⟨rfl, rfl⟩
    rfl

/-- Unfolding one step of lexicographic string comparison. -/
theorem lex_cons_iff {a b : Char} {l₁ l₂ : List Char} :
    List.Lex (· < ·) (a :: l₁) (b :: l₂) ↔
      a < b ∨ (a = b ∧ List.Lex (· < ·) l₁ l₂) := by
  constructor
  · intro h
    cases h with
    | cons h => exact Or.inr ⟨rfl, h⟩
    | rel h => exact Or.inl h
  · rintro (h | ⟨rfl, h⟩)
    · exact List.Lex.rel h
    · exact List.Lex.cons h

/-- Equal heads are skipped by lexicographic comparison. -/
theorem lex_cons_self_iff {c : Char} {l₁ l₂ : List Char} :
    List.Lex (· < ·) (c :: l₁) (c :: l₂) ↔ List.Lex (· < ·) l₁ l₂ := by
  rw [lex_cons_iff]
  constructor
  · rintro (h | ⟨_, h⟩)
    · exact absurd h (lt_irrefl c)
    · exact h
  · intro h
    exact Or.inr ⟨rfl, h⟩

/-- Digit characters compare like the digits they print. -/
theorem digitChar_lt_iff {x y : Nat} (hx : x < 10) (hy : y < 10) :
    (digitChar x < digitChar y) ↔ x < y := by
  interval_cases x <;> interval_cases y <;> decide

/-- Digit characters are equal exactly when the digits are. -/
theorem digitChar_eq_iff {x y : Nat} (hx : x < 10) (hy : y < 10) :
    (digitChar x = digitChar y) ↔ x = y := by
  interval_cases x <;> interval_cases y <;> decide

/-- Zero-padded fixed-width numbers compare lexicographically exactly like
their values, with ties decided by the rest of the string. -/
theorem padList_lex_iff (k : Nat) : ∀ (a b : Nat) (r1 r2 : List Char),
    a < 10 ^ k → b < 10 ^ k →
    (List.Lex (· < ·) (padList k a ++ r1) (padList k b ++ r2) ↔
      a < b ∨ (a = b ∧ List.Lex (· < ·) r1 r2)) := by
  induction k with
  | zero =>
    intro a b r1 r2 ha hb
    have ha0 : a = 0 := by simpa using ha
    have hb0 : b = 0 := by simpa using hb
    subst ha0; subst hb0
    simp [padList]
  | succ k ih =>
    intro a b r1 r2 ha hb
    have hpos : 0 < 10 ^ k := Nat.pos_pow_of_pos k (by omega)
    have hda : a / 10 ^ k < 10 := by
      rw [Nat.div_lt_iff_lt_mul hpos]
      rw [pow_succ, Nat.mul_comm (10 ^ k) 10] at ha
      exact ha
    have hdb : b / 10 ^ k < 10 := by
      rw [Nat.div_lt_iff_lt_mul hpos]
      rw [pow_succ, Nat.mul_comm (10 ^ k) 10] at hb
      exact hb
    rw [padList, padList, List.cons_append, List.cons_append, lex_cons_iff,
      digitChar_lt_iff hda hdb, digitChar_eq_iff hda hdb,
      ih (a % 10 ^ k) (b % 10 ^ k) r1 r2 (Nat.mod_lt _ hpos) (Nat.mod_lt _ hpos)]
    have hlt : a < b ↔ a / 10 ^ k < b / 10 ^ k ∨
        (a / 10 ^ k = b / 10 ^ k ∧ a % 10 ^ k < b % 10 ^ k) := by
      conv_lhs => rw [← Nat.div_add_mod a (10 ^ k), ← Nat.div_add_mod b (10 ^ k)]
      exact mul_add_lt_iff (Nat.mod_lt _ hpos) (Nat.mod_lt _ hpos)
    have heq : a = b ↔ a / 10 ^ k = b / 10 ^ k ∧ a % 10 ^ k = b % 10 ^ k := by
      conv_lhs => rw [← Nat.div_add_mod a (10 ^ k), ← Nat.div_add_mod b (10 ^ k)]
      exact mul_add_eq_iff (Nat.mod_lt _ hpos) (Nat.mod_lt _ hpos)
    rw [hlt, heq]
    constructor
    · rintro (h | ⟨h5, h6 | ⟨h7, hP⟩⟩)
      · exact Or.inl (Or.inl h)
      · exact Or.inl (Or.inr ⟨h5, h6⟩)
      · exact Or.inr ⟨⟨h5, h7⟩, hP⟩
    · rintro ((h | ⟨h5, h6⟩) | ⟨⟨h5, h6⟩, hP⟩)
      · exact Or.inl h
      · exact Or.inr ⟨h5, Or.inl h6⟩
      · exact Or.inr ⟨h5, Or.inr ⟨h6, hP⟩⟩

/-- The `isoformat` text of valid datetimes is sortable: lexicographic
string order coincides with chronological order. -/
theorem isoformat_lt_iff (t1 t2 : Datetime) (hv1 : ValidDatetime t1) (hv2 : ValidDatetime t2) :
    (isoformat t1 < isoformat t2 ↔ dtLt t1 t2) := by
  obtain ⟨y1, mo1, d1, hh1, mi1, s1, us1⟩ := t1
  obtain ⟨y2, mo2, d2, hh2, mi2, s2, us2⟩ := t2
  simp only [ValidDatetime] at hv1 hv2
  have hy1 : y1 < 10 ^ 4 := by norm_num; omega
  have hy2 : y2 < 10 ^ 4 := by norm_num; omega
  have hmo1 : mo1 < 10 ^ 2 := by norm_num; omega
  have hmo2 : mo2 < 10 ^ 2 := by norm_num; omega
  have hd31a := daysInMonth_le y1 mo1
  have hd31b := daysInMonth_le y2 mo2
  have hd1 : d1 < 10 ^ 2 := by norm_num; omega
  have hd2 : d2 < 10 ^ 2 := by norm_num; omega
  have hhh1 : hh1 < 10 ^ 2 := by norm_num; omega
  have hhh2 : hh2 < 10 ^ 2 := by norm_num; omega
  have hmi1 : mi1 < 10 ^ 2 := by norm_num; omega
  have hmi2 : mi2 < 10 ^ 2 := by norm_num; omega
  have hs1 : s1 < 10 ^ 2 := by norm_num; omega
  have hs2 : s2 < 10 ^ 2 := by norm_num; omega
  have hu1 : us1 < 10 ^ 6 := by norm_num; omega
  have hu2 : us2 < 10 ^ 6 := by norm_num; omega
  have htail : (List.Lex (· < ·) (if us1 = 0 then [] else '.' :: padList 6 us1)
      (if us2 = 0 then [] else '.' :: padList 6 us2) ↔ us1 < us2) := by
    by_cases e1 : us1 = 0 <;> by_cases e2 : us2 = 0
    · rw [if_pos e1, if_pos e2]
      constructor
      · intro h
        exact nomatch h
      · intro h
        omega
    · rw [if_pos e1, if_neg e2]
      constructor
      · intro _
        omega
      · intro _
        exact List.Lex.nil
    · rw [if_neg e1, if_pos e2]
      constructor
      · intro h
        exact nomatch h
      · intro h
        omega
    · rw [if_neg e1, if_neg e2, lex_cons_self_iff]
      conv_lhs => rw [← List.append_nil (padList 6 us1), ← List.append_nil (padList 6 us2)]
      rw [padList_lex_iff 6 us1 us2 [] [] hu1 hu2]
      constructor
      · rintro (h | ⟨_, h⟩)
        · exact h
        · exact nomatch h
      · intro h
        exact Or.inl h
  rw [String.lt_iff_toList_lt]
  show (List.Lex (· < ·) (isoformatList ⟨y1, mo1, d1, hh1, mi1, s1, us1⟩)
    (isoformatList ⟨y2, mo2, d2, hh2, mi2, s2, us2⟩) ↔ _)
  simp only [isoformatList]
  rw [padList_lex_iff 4 _ _ _ _ hy1 hy2, lex_cons_self_iff,
    padList_lex_iff 2 _ _ _ _ hmo1 hmo2, lex_cons_self_iff,
    padList_lex_iff 2 _ _ _ _ hd1 hd2, lex_cons_self_iff,
    padList_lex_iff 2 _ _ _ _ hhh1 hhh2, lex_cons_self_iff,
    padList_lex_iff 2 _ _ _ _ hmi1 hmi2, lex_cons_self_iff,
    padList_lex_iff 2 _ _ _ _ hs1 hs2, htail]
  simp only [dtLt]

/-- Round trip at the string level. -/
theorem fromisoformat_isoformat (t : Datetime) (h : ValidDatetime t) :
    fromisoformat (isoformat t) = some t :=
  fromisoformatList_isoformatList t h

/-- Claim C9. Saving a session and loading it back by the same session id
reproduces the record field-for-field; the `created_at` timestamp
serialises through `isoformat` to a textual form that is unambiguous
(injective on valid datetimes) and sortable (lexicographic order equals
chronological order), and is restored to an equal timestamp value by
`fromisoformat`. -/
theorem session_save_load_roundtrip (σ : SessionStore) (sid : String) (s : Session)
    (t2 : Datetime) (hv : ValidDatetime s.createdAt) (hv2 : ValidDatetime t2) :
    loadSession (saveSession σ sid s) sid = some s ∧
    (isoformat s.createdAt = isoformat t2 → s.createdAt = t2) ∧
    (isoformat s.createdAt < isoformat t2 ↔ dtLt s.createdAt t2) := by
  refine ⟨?_, ?_, isoformat_lt_iff _ _ hv hv2⟩
  · unfold loadSession saveSession
    simp only [if_true, fromisoformat_isoformat _ hv]
  · intro h
    have h1 := fromisoformat_isoformat _ hv
    rw [h, fromisoformat_isoformat _ hv2] at h1
    exact (Option.some.injEq _ _ ▸ h1).symm

/-- Claim C9. Saving a session and loading it back by the same session id
reproduces the record field-for-field; the `created_at` timestamp
serialises through `isoformat` to a textual form that is unambiguous
(injective on valid datetimes) and sortable (lexicographic order equals
chronological order), and is restored to an equal timestamp value by
`fromisoformat`. -/
theorem session_save_load_roundtrip_witness :
    loadSession (saveSession (fun _ => none) "default"
      ⟨[⟨"user", "hi"⟩], ⟨2024, 5, 17, 10, 3, 9, 123456⟩, "New Conversation"⟩) "default" =
      some ⟨[⟨"user", "hi"⟩], ⟨2024, 5, 17, 10, 3, 9, 123456⟩, "New Conversation"⟩ ∧
    (isoformat (⟨2024, 5, 17, 10, 3, 9, 123456⟩ : Datetime) =
        isoformat (⟨2025, 1, 1, 0, 0, 0, 0⟩ : Datetime) →
      (⟨2024, 5, 17, 10, 3, 9, 123456⟩ : Datetime) = ⟨2025, 1, 1, 0, 0, 0, 0⟩) ∧
    (isoformat (⟨2024, 5, 17, 10, 3, 9, 123456⟩ : Datetime) <
        isoformat (⟨2025, 1, 1, 0, 0, 0, 0⟩ : Datetime) ↔
      dtLt ⟨2024, 5, 17, 10, 3, 9, 123456⟩ ⟨2025, 1, 1, 0, 0, 0, 0⟩) :=
  session_save_load_roundtrip (fun _ => none) "default"
    ⟨[⟨"user", "hi"⟩], ⟨2024, 5, 17, 10, 3, 9, 123456⟩, "New Conversation"⟩
    ⟨2025, 1, 1, 0, 0, 0, 0⟩ (by decide) (by decide)

end RAGSpec
